import Mathlib

/-!
Verification development for the nsfwtagger-stash-plugin batch orchestration
engine.  The definitions below are a shallow embedding of the JavaScript
source: `src/ui/BatchProcessor.jsx` (batch dispatcher, progress tracking,
cancellation, result application), the container client (`NSFWTaggerClient`:
`request`, `processScene`, `retryRequest`, `processSceneWithRetry`), the
error handler (`ErrorHandler`: `getErrorCode`, `isRetryableError`,
`shouldRetry`, `getRetryDelay`, `retryOperation`) and the catalog client
(`src/api/stash_client.js`: `createTagIfNotExists`, `getTagByName`,
`addTagsToScene`, `addTagsToImage`, `createSceneMarker`).

Asynchronous effects are modelled by explicit state passing and by oracle
functions for the remote collaborators (HTTP responses, catalog mutation
failures, jitter of `Math.random()`).  JavaScript numbers that carry
fractional values (delays, marker offsets) are modelled as rationals.
-/

namespace NSFWTagger

/-- Item identifiers.  The source uses opaque string ids; only equality is
ever used, so we model them as naturals. -/
abbrev ItemId := Nat


/-! ## Batch processor state (src/ui/BatchProcessor.jsx) -/

/-- The `progress` sub-object of the component state
(`BatchProcessor.jsx` constructor / `startProcessing`). -/
@[ext] structure Progress where
  current : Nat
  total : Nat
  completed : Nat
  failed : Nat
  status : String
deriving Repr, DecidableEq


/-- One entry of the `errors` list built in `processItems`: the source
pushes `{id, success:false, error}` objects; no `source` or `retryable`
field exists on them. -/
@[ext] structure ErrorEntry where
  id : ItemId
  error : String
deriving Repr, DecidableEq


/-- The part of the component state driven by a batch run
(`processing`, `progress`, `results`, `errors`).  `results` keeps the
ids of the successful outcome objects `{id, success:true, result}`. -/
@[ext] structure BatchRunState where
  processing : Bool
  progress : Progress
  results : List ItemId
  errors : List ErrorEntry
deriving Repr, DecidableEq


/-- `createBatches(items, batchSize)` (BatchProcessor.jsx:256-262):
slices the input into consecutive chunks of `batchSize` via
`for (let i = 0; i < items.length; i += batchSize) push(items.slice(i, i + batchSize))`.
For `batchSize = 0` the JavaScript loop never terminates; that case is
unreachable (the dispatcher is only invoked with `concurrency >= 1`) and we
return `[]` for it. -/
def createBatches (l : List α) (b : Nat) : List (List α) :=
  if l.isEmpty || b == 0 then []
  else (l.take b) :: createBatches (l.drop b) b
termination_by l.length
decreasing_by
  rename_i h
  simp only [Bool.or_eq_true, beq_iff_eq, List.isEmpty_iff, not_or] at h
  obtain ⟨hl, hb⟩ := h
  simp only [List.length_drop]
  have := List.length_pos.mpr hl
  omega


/-- The per-item outcome oracle: `processItem(itemId, type)` either resolves
with a success object or rejects; the `.catch` in `processItems` turns a
rejection into an error record carrying `error.message`.  `none` models
success, `some msg` models rejection with message `msg`. -/
abbrev ProcOracle := ItemId → Option String


/-- One iteration of the `for (const batch of batches)` loop in
`processItems` (BatchProcessor.jsx:228-253): run the whole batch, split the
settled results into `successful`/`failed`, append them to `results`/`errors`
and bump the `completed`/`failed` counters. -/
def batchStep (proc : ProcOracle) (s : BatchRunState) (batch : List ItemId) :
    BatchRunState :=
  let successful := batch.filter (fun i => (proc i).isNone)
  let failedItems := batch.filter (fun i => (proc i).isSome)
  { s with
    results := s.results ++ successful
    errors := s.errors ++ failedItems.map (fun i => ⟨i, (proc i).getD ""⟩)
    progress := { s.progress with
      completed := s.progress.completed + successful.length
      failed := s.progress.failed + failedItems.length } }


/-- `processItems(itemIds, type)` (BatchProcessor.jsx:224-254): fold the
batch loop over `createBatches(itemIds, concurrency)`.  Each batch is
awaited in full (`Promise.all`) before the next one starts. -/
def processItems (proc : ProcOracle) (s : BatchRunState) (itemIds : List ItemId)
    (concurrency : Nat) : BatchRunState :=
  (createBatches itemIds concurrency).foldl (batchStep proc) s


/-- The state installed by `startProcessing` before dispatch
(BatchProcessor.jsx:181-192). -/
def initialRunState (selectedItems : List ItemId) : BatchRunState :=
  { processing := true
    progress :=
      { current := 0
        total := selectedItems.length
        completed := 0
        failed := 0
        status := "processing" }
    results := []
    errors := [] }


/-- `startProcessing` (BatchProcessor.jsx:166-204): refuse an empty
selection (early return after the alert), otherwise install the fresh run
state, process every selected item and clear the `processing` flag.  The
connection-validation precondition is assumed to pass (it is a pure
collaborator call). -/
def startProcessing (proc : ProcOracle) (selectedItems : List ItemId)
    (concurrency : Nat) : Option BatchRunState :=
  if selectedItems.isEmpty then none
  else
    let s := processItems proc (initialRunState selectedItems) selectedItems concurrency
    some { s with processing := false }


/-- `cancelProcessing` (BatchProcessor.jsx:338-356): sends the remote
`/cancel` request, then resets `processing` and the whole progress object
(`current/total/completed/failed` to `0`, `status` to `"cancelled"`).
`results` and `errors` are left alone, and nothing stops the
`processItems` loop. -/
def cancelProcessing (s : BatchRunState) : BatchRunState :=
  { s with
    processing := false
    progress := { current := 0, total := 0, completed := 0, failed := 0, status := "cancelled" } }


/-- A run in which the cancel button fires between batch `k` and batch
`k+1` of the dispatch loop: the loop in `processItems` holds no reference
to any cancellation flag, so after `cancelProcessing` rewrites the state the
remaining batches are still processed exactly as before. -/
def runWithCancelAfter (proc : ProcOracle) (selectedItems : List ItemId)
    (concurrency k : Nat) : BatchRunState :=
  let bs := createBatches selectedItems concurrency
  let s1 := (bs.take k).foldl (batchStep proc) (initialRunState selectedItems)
  (bs.drop k).foldl (batchStep proc) (cancelProcessing s1)


/-- `getProgressPercentage` (BatchProcessor.jsx:358-362):
`Math.round((completed / total) * 100)` guarded by `total === 0`. -/
def getProgressPercentage (p : Progress) : Int :=
  if p.total = 0 then 0
  else round (((p.completed : ℚ) / (p.total : ℚ)) * 100)


/-! ## Timed scheduling models for the dispatcher (C9)

`processItems` awaits `Promise.all(batch.map(processItem))` before entering
the next loop iteration, so the batch boundary is a barrier: all items of a
batch start together and the next batch starts when the slowest item of the
current batch has resolved. -/

/-- Completion duration of one batch under `Promise.all`: the batch
resolves when its slowest item resolves (`d` gives per-item processing
durations). -/
def chunkDuration (d : ItemId → Nat) (c : List ItemId) : Nat :=
  c.foldl (fun m i => max m (d i)) 0


/-- Start times of the items of successive barrier-separated batches,
starting at time `t`. -/
def barrierStartTimes (d : ItemId → Nat) : List (List ItemId) → Nat → List (ItemId × Nat)
  | [], _ => []
  | c :: cs, t => c.map (fun i => (i, t)) ++ barrierStartTimes d cs (t + chunkDuration d c)


/-- Item start times of the dispatcher as implemented: the barrier schedule
over the static partition `createBatches`. -/
def dispatchStartTimes (ids : List ItemId) (conc : Nat) (d : ItemId → Nat) :
    List (ItemId × Nat) :=
  barrierStartTimes d (createBatches ids conc) 0


/-- Replace the first occurrence of `t` in the worker free-time list by `nt`. -/
def bumpFirst : List Nat → Nat → Nat → List Nat
  | [], _, _ => []
  | x :: xs, t, nt => if x = t then nt :: xs else x :: bumpFirst xs t nt


/-- Earliest free time among the workers. -/
def minFree (w : List Nat) : Nat := w.foldl min (w.headD 0)


/-- Modelled from the spec: the scheduling the spec ascribes to the Batch
Dispatcher — "a bounded pool of exactly `concurrency` concurrent workers
pulling items one at a time from a shared queue of remaining WorkItems"
(no such pool exists in the source, which uses `createBatches` +
`Promise.all`).  Each successive queue item starts on the worker that
becomes free first; `w` carries the workers' free times. -/
def specPoolStartTimes (d : ItemId → Nat) : List Nat → List ItemId → List (ItemId × Nat)
  | _, [] => []
  | w, i :: rest =>
    let t := minFree w
    (i, t) :: specPoolStartTimes d (bumpFirst w t (t + d i)) rest


/-! ## Errors and the retry policy

`NSFWTaggerClient.retryRequest` (container client, lines 358-380) and
`ErrorHandler.retryOperation` (error handler, lines 153-175) are the same
loop: `for (attempt = 1; attempt <= maxRetries; attempt++) { try return await
fn() } catch { if (attempt === maxRetries) throw;
delay = baseDelay * 2^(attempt-1) + Math.random() * 1000; sleep(delay) }`.
Neither consults any error classifier.  `ErrorHandler.shouldRetry` /
`isRetryableError` / `getRetryDelay` are defined but are called from
nowhere in the repository. -/

/-- A JavaScript error value as inspected by the error handler: optional
`code`, `status`, `name` fields plus a `message`.  Absent (undefined)
fields are `none`; the source tests them for truthiness. -/
@[ext] structure JsError where
  code : Option String
  status : Option Nat
  name : Option String
  message : String
deriving Repr, DecidableEq


/-- `ErrorHandler.getErrorCode` (error handler, lines 247-255). -/
def getErrorCode (e : JsError) : String :=
  match e.code with
  | some c => c
  | none =>
    match e.status with
    | some s => toString s
    | none =>
      match e.name with
      | some n => n
      | none => "UNKNOWN_ERROR"


/-- JavaScript `String.prototype.includes`. -/
def strIncludes (s sub : String) : Bool :=
  decide (sub.toList <:+: s.toList)


/-- The `retryableCodes` list of `ErrorHandler.isRetryableError`. -/
def retryableCodes : List String :=
  ["NETWORK_ERROR", "TIMEOUT", "CONNECTION_REFUSED", "ECONNRESET",
   "ENETUNREACH", "ECONNABORTED", "500", "502", "503", "504"]


/-- `ErrorHandler.isRetryableError` (error handler, lines 180-198). -/
def isRetryableError (e : JsError) : Bool :=
  retryableCodes.contains (getErrorCode e) ||
    strIncludes e.message "timeout" || strIncludes e.message "network"


/-- The `nonRetryableCodes` list of `ErrorHandler.shouldRetry`. -/
def nonRetryableCodes : List String :=
  ["VALIDATION_ERROR", "AUTHENTICATION_ERROR", "PERMISSION_DENIED",
   "NOT_FOUND", "400", "401", "403", "404"]


/-- `ErrorHandler.shouldRetry` (error handler, lines 517-538): terminal on
the listed codes, otherwise retry iff `isRetryableError`.  Nothing in the
repository ever calls this function. -/
def shouldRetry (e : JsError) : Bool :=
  if nonRetryableCodes.contains (getErrorCode e) then false
  else isRetryableError e


/-- `ErrorHandler.getRetryDelay` (error handler, lines 543-547):
`Math.floor(min(maxDelay, baseDelay * 2^(attempt-1)) + jitter)` with
`jitter = Math.random() * 1000`.  Also dead code: the retry loops compute
their own (uncapped) delay inline. -/
def getRetryDelay (attempt : Nat) (baseDelay maxDelay jitter : ℚ) : Int :=
  Int.floor (min maxDelay (baseDelay * 2 ^ (attempt - 1)) + jitter)


/-- Everything observable about one `retryRequest` run: the propagated
result, how many times the wrapped operation was invoked, and the sleeps
performed between attempts (in milliseconds). -/
@[ext] structure RetryTrace (α : Type) where
  result : Except JsError α
  calls : Nat
  sleeps : List ℚ
deriving Repr


/-- The `throw lastError` reached when the loop body never runs
(`maxRetries = 0`): `lastError` is still `undefined`. -/
def undefinedError : JsError := ⟨none, none, none, "undefined"⟩


/-- The body of `retryRequest`, iterating over the remaining attempt
numbers (`[attempt, …, maxRetries]`).  `requestFn attempt` is the outcome
of the `attempt`-th invocation of the wrapped operation; `jitter attempt`
models the `Math.random() * 1000` sample of that iteration.  On failure of
the final attempt (`attempt === maxRetries`) the error is rethrown with no
sleep; otherwise the loop sleeps `baseDelay * 2^(attempt-1) + jitter` and
retries.  No classification of the error happens anywhere. -/
def retryFold (requestFn : Nat → Except JsError α) (maxRetries : Nat)
    (baseDelay : ℚ) (jitter : Nat → ℚ) : List Nat → JsError → RetryTrace α
  | [], lastError => ⟨.error lastError, 0, []⟩
  | attempt :: rest, _ =>
    match requestFn attempt with
    | .ok v => ⟨.ok v, 1, []⟩
    | .error e =>
      if attempt = maxRetries then ⟨.error e, 1, []⟩
      else
        let d : ℚ := baseDelay * 2 ^ (attempt - 1) + jitter attempt
        let r := retryFold requestFn maxRetries baseDelay jitter rest e
        ⟨r.result, r.calls + 1, d :: r.sleeps⟩


/-- `NSFWTaggerClient.retryRequest` (container client, lines 358-380):
the attempt loop runs over attempts `1 … maxRetries`.
`ErrorHandler.retryOperation` (error handler, lines 153-175) is the same
code with the same defaults. -/
def retryRequest (requestFn : Nat → Except JsError α) (maxRetries : Nat)
    (baseDelay : ℚ) (jitter : Nat → ℚ) : RetryTrace α :=
  retryFold requestFn maxRetries baseDelay jitter (List.range' 1 maxRetries) undefinedError


/-! ## Remote processing client (container client) -/

/-- The resolved value of `processScene`/`processImage` (container client,
lines 90-151): `{success, result, error}` where `error` is the caught
exception's message.  These functions catch every failure of `request` —
they never reject. -/
@[ext] structure ProcResponse (β : Type) where
  success : Bool
  result : Option β
  error : Option String
deriving Repr


/-- `processScene` (container client, lines 90-119) given the outcome of
its single `this.request('/process/scene')` call: a non-2xx response makes
`request` throw `HTTP <status>: <statusText>`, which `processScene`
converts into `{success:false, error: message}` instead of rethrowing. -/
def processScene (requestOutcome : Except JsError β) : ProcResponse β :=
  match requestOutcome with
  | .ok data => ⟨true, some data, none⟩
  | .error e => ⟨false, none, some e.message⟩


/-- `processSceneWithRetry` (container client, lines 385-390):
`retryRequest(() => this.processScene(sceneId, options), maxRetries)`.
Each invocation of the wrapped closure performs exactly one HTTP request
(`http attempt` is its outcome), and — crucially — always *resolves*,
because `processScene` swallows its errors. -/
def processSceneWithRetry (http : Nat → Except JsError β) (maxRetries : Nat)
    (jitter : Nat → ℚ) : RetryTrace (ProcResponse β) :=
  retryRequest (fun attempt => .ok (processScene (http attempt))) maxRetries 1000 jitter


/-- `processItem` (BatchProcessor.jsx:264-296), remote-call part: await
`processSceneWithRetry`; if the resolved value has `success: false`, throw
`new Error(result.error || 'Processing failed')`.  (On success the result
is then applied to the catalog; the application is modelled separately.)
Returns the rejection message, `none` on success. -/
def processItemRemote (http : Nat → Except JsError β) (maxRetries : Nat)
    (jitter : Nat → ℚ) : Option String :=
  match (processSceneWithRetry http maxRetries jitter).result with
  | .error e => some e.message
  | .ok resp =>
    if resp.success then none
    else
      match resp.error with
      | some m => if m = "" then some "Processing failed" else some m
      | none => some "Processing failed"


/-! ### The HTTP-500 partial-failure scenario (C2) -/

/-- The error thrown by `request` for a 500 response:
`new Error("HTTP 500: Internal Server Error")` — a plain `Error` whose only
fields are `name` and `message`. -/
def http500Error : JsError := ⟨none, none, some "Error", "HTTP 500: Internal Server Error"⟩


/-- The scenario's HTTP oracle: item 3's processing endpoint returns
HTTP 500 on every attempt, every other item's endpoint succeeds. -/
def scenarioHttp (i : ItemId) : Nat → Except JsError Unit :=
  fun _ => if i = 3 then .error http500Error else .ok ()


/-- The per-item outcome induced by the pipeline in the scenario
(result application succeeds for the successful items). -/
def scenarioProc : ProcOracle :=
  fun i => processItemRemote (scenarioHttp i) 3 (fun _ => 0)


/-! ## Catalog client (src/api/stash_client.js) and result application -/

/-- A tag row of the catalog. -/
@[ext] structure Tag where
  id : Nat
  name : String
deriving Repr, DecidableEq


/-- One marker of an AI result (`{title, seconds, tags}` as consumed by
`applyResultsToStash`). -/
@[ext] structure MarkerInput where
  title : String
  seconds : ℚ
  tags : List String
deriving Repr, DecidableEq


/-- A scene marker row created in the catalog. -/
@[ext] structure MarkerRec where
  sceneId : ItemId
  title : String
  seconds : ℚ
  tagIds : List Nat
deriving Repr, DecidableEq


/-- The catalog collaborator's state, per its documented interface: tags
findable by name (`findTag`), per-entity attached tag id sets (bulk update
with `mode: "ADD"` adds set-wise), and scene markers created by
`SceneMarkerCreate` (plain creation — the mutation has no find-or-create
semantics).  `nextTagId` models server-side id assignment. -/
@[ext] structure Catalog where
  tags : List Tag
  nextTagId : Nat
  sceneTags : List (ItemId × Nat)
  imageTags : List (ItemId × Nat)
  markers : List MarkerRec
deriving Repr, DecidableEq


/-- `findTag(name)` on the server / `getTagByName` on the client
(stash_client.js:420-438): the first tag carrying the given name (query
failures are caught and returned as `null`; the model covers the
reachable-server case). -/
def findTagByName (cat : Catalog) (name : String) : Option Tag :=
  cat.tags.find? (fun t => t.name = name)


/-- `createTagIfNotExists` (stash_client.js:384-415): look the name up
first and reuse the existing tag's id; only create when absent. -/
def createTagIfNotExists (cat : Catalog) (tagName : String) : Catalog × Option Nat :=
  match findTagByName cat tagName with
  | some t => (cat, some t.id)
  | none =>
    ({ cat with
        tags := cat.tags ++ [⟨cat.nextTagId, tagName⟩]
        nextTagId := cat.nextTagId + 1 },
     some cat.nextTagId)


/-- Server-side effect of a bulk tag update with `mode: "ADD"`: each listed
tag id is attached to the entity unless already attached. -/
def attachPairs (entityId : ItemId) : List (ItemId × Nat) → List Nat → List (ItemId × Nat)
  | cur, [] => cur
  | cur, tid :: rest =>
    attachPairs entityId
      (if (entityId, tid) ∈ cur then cur else cur ++ [(entityId, tid)]) rest


/-- `addTagsToScene` (stash_client.js:443-469): `bulkSceneUpdate` with
`tag_ids {ids, mode: "ADD"}`. -/
def addTagsToScene (sceneId : ItemId) (cat : Catalog) (tagIds : List Nat) : Catalog :=
  { cat with sceneTags := attachPairs sceneId cat.sceneTags tagIds }


/-- `addTagsToImage` (stash_client.js:474-500): `bulkImageUpdate` with
`tag_ids {ids, mode: "ADD"}`. -/
def addTagsToImage (imageId : ItemId) (cat : Catalog) (tagIds : List Nat) : Catalog :=
  { cat with imageTags := attachPairs imageId cat.imageTags tagIds }


/-- Response of the `SceneMarkerCreate` mutation for a given marker:
`none` = created, `some msg` = the GraphQL call throws `msg`. -/
abbrev MarkerFailOracle := String → ℚ → Option String


/-- `createSceneMarker` (stash_client.js:505-546): resolve the marker's tag
names via `getTagByName`, silently skipping names that do not resolve, then
issue the create mutation; a mutation failure is rethrown. -/
def createSceneMarker (failM : MarkerFailOracle) (cat : Catalog) (sceneId : ItemId)
    (title : String) (seconds : ℚ) (tagNames : List String) :
    Catalog × Option String :=
  let tagIds := tagNames.filterMap (fun n => (findTagByName cat n).map Tag.id)
  match failM title seconds with
  | some msg => (cat, some msg)
  | none =>
    ({ cat with markers := cat.markers ++ [⟨sceneId, title, seconds, tagIds⟩] }, none)


/-- The tag loop of `applyResultsToStash` (BatchProcessor.jsx:301-308):
`for (const tagName of result.tags) { tagId = await createTagIfNotExists(tagName);
if (tagId) tagIds.push(tagId) }`. -/
def resolveTags : Catalog → List String → Catalog × List Nat
  | cat, [] => (cat, [])
  | cat, n :: ns =>
    match createTagIfNotExists cat n with
    | (c, some tid) =>
      let r := resolveTags c ns
      (r.1, tid :: r.2)
    | (c, none) => resolveTags c ns


/-- The marker loop of `applyResultsToStash` (BatchProcessor.jsx:321-330):
`for (const marker of result.markers) await createSceneMarker(...)`; a
throw aborts the loop.  Returns the final catalog, the propagated error (if
any) and the number of `createSceneMarker` invocations performed. -/
def createMarkersLoop (failM : MarkerFailOracle) (sceneId : ItemId) :
    Catalog → List MarkerInput → Catalog × Option String × Nat
  | cat, [] => (cat, none, 0)
  | cat, m :: rest =>
    match createSceneMarker failM cat sceneId m.title m.seconds m.tags with
    | (c, none) =>
      let r := createMarkersLoop failM sceneId c rest
      (r.1, r.2.1, r.2.2 + 1)
    | (c, some msg) => (c, some msg, 1)


/-- An AI processing result as consumed by `applyResultsToStash`. -/
@[ext] structure AIResult where
  tags : List String
  markers : List MarkerInput
deriving Repr, DecidableEq


/-- Everything observable about one `applyResultsToStash` run: the final
catalog, the propagated error (the function rethrows the first failure it
meets) and the number of marker-create mutations issued. -/
@[ext] structure ApplyTrace where
  cat : Catalog
  error : Option String
  markerCreateCalls : Nat
deriving Repr, DecidableEq


/-- The tag half of `applyResultsToStash` (BatchProcessor.jsx:301-318):
resolve-or-create every generated tag, then — when any ids were collected —
bulk-attach them to the scene or image according to `type`. -/
def tagPhase (cat : Catalog) (itemId : ItemId) (ty : String) (result : AIResult) :
    Catalog :=
  let r := resolveTags cat result.tags
  if r.2.length > 0 then
    if ty = "scenes" then addTagsToScene itemId r.1 r.2
    else addTagsToImage itemId r.1 r.2
  else r.1


/-- `applyResultsToStash(itemId, type, result)` (BatchProcessor.jsx:298-336):
the tag phase, then — for scenes with markers — create each marker in
order.  There is no retry anywhere and no rollback: an error simply
propagates, leaving all earlier writes in place. -/
def applyResultsToStash (failM : MarkerFailOracle) (cat : Catalog) (itemId : ItemId)
    (ty : String) (result : AIResult) : ApplyTrace :=
  let c2 := tagPhase cat itemId ty result
  if ty = "scenes" ∧ result.markers.length > 0 then
    let mres := createMarkersLoop failM itemId c2 result.markers
    ⟨mres.1, mres.2.1, mres.2.2⟩
  else ⟨c2, none, 0⟩


/-- A marker-create oracle with no failures (reachable catalog, accepted
mutations). -/
def noMarkerFailure : MarkerFailOracle := fun _ _ => none


/-- The marker-create failure used in the C8 counterexample: the mutation
for the marker titled `"bad"` always throws. -/
def badMarkerOracle : MarkerFailOracle :=
  fun t _ => if t = "bad" then some "GraphQL request failed" else none


/-! ## Theorems -/

/-! ### Structural lemmas about the dispatcher -/

theorem createBatches_eq (l : List α) (b : Nat) :
    createBatches l b =
      if l.isEmpty || b == 0 then [] else (l.take b) :: createBatches (l.drop b) b := by
  rw [createBatches]


theorem createBatches_nil (b : Nat) : createBatches ([] : List α) b = [] := by
  rw [createBatches_eq]
  simp


theorem createBatches_cons (x : α) (xs : List α) (bp : Nat) :
    createBatches (x :: xs) (bp + 1) =
      ((x :: xs).take (bp + 1)) :: createBatches (xs.drop bp) (bp + 1) := by
  rw [createBatches_eq]
  simp


theorem createBatches_flatten (b : Nat) (hb : 1 ≤ b) :
    ∀ (n : Nat) (l : List α), l.length ≤ n → (createBatches l b).flatten = l := by
  intro n
  induction n with
  | zero =>
    intro l hl
    have hl0 : l = [] := List.eq_nil_of_length_eq_zero (Nat.le_zero.mp hl)
    subst hl0
    simp [createBatches_nil]
  | succ n ih =>
    intro l hl
    match l, b, hb with
    | [], _, _ => simp [createBatches_nil]
    | x :: xs, bp + 1, _ =>
      rw [createBatches_cons, List.flatten_cons]
      have hlen : (xs.drop bp).length ≤ n := by
        simp only [List.length_drop]
        simp only [List.length_cons] at hl
        omega
      rw [ih _ hlen]
      have hdrop : (x :: xs).drop (bp + 1) = xs.drop bp := rfl
      rw [← hdrop, List.take_append_drop]


theorem createBatches_chunk_sizes (b : Nat) (hb : 1 ≤ b) :
    ∀ (n : Nat) (l : List α), l.length ≤ n →
      ∀ c ∈ createBatches l b, c ≠ [] ∧ c.length ≤ b := by
  intro n
  induction n with
  | zero =>
    intro l hl c hc
    have hl0 : l = [] := List.eq_nil_of_length_eq_zero (Nat.le_zero.mp hl)
    subst hl0
    simp [createBatches_nil] at hc
  | succ n ih =>
    intro l hl c hc
    match l, b, hb with
    | [], _, _ => simp [createBatches_nil] at hc
    | x :: xs, bp + 1, _ =>
      rw [createBatches_cons] at hc
      rcases List.mem_cons.mp hc with h | h
      · subst h
        constructor
        · simp [List.take]
        · simp
      · exact ih (xs.drop bp)
          (by simp only [List.length_drop]; simp only [List.length_cons] at hl; omega) c h


/-- Every scheduled group is a consecutive slice of the input: group `i`
is `(l.drop (i * b)).take b`.  This is exactly a fixed static partitioning
of the input in input order. -/
theorem createBatches_get (b : Nat) (hb : 1 ≤ b) :
    ∀ (n : Nat) (l : List α), l.length ≤ n →
      ∀ (i : Nat) (h : i < (createBatches l b).length),
        (createBatches l b).get ⟨i, h⟩ = (l.drop (i * b)).take b := by
  intro n
  induction n with
  | zero =>
    intro l hl i h
    have hl0 : l = [] := List.eq_nil_of_length_eq_zero (Nat.le_zero.mp hl)
    subst hl0
    simp [createBatches_nil] at h
  | succ n ih =>
    intro l hl i h
    match l, b, hb with
    | [], _, _ => simp [createBatches_nil] at h
    | x :: xs, bp + 1, _ =>
      match i with
      | 0 => simp [createBatches_cons]
      | i + 1 =>
        have h2 : i < (createBatches (xs.drop bp) (bp + 1)).length := by
          rw [createBatches_cons] at h
          simpa using h
        have hgoal :
            (createBatches (x :: xs) (bp + 1)).get ⟨i + 1, h⟩ =
            (createBatches (xs.drop bp) (bp + 1)).get ⟨i, h2⟩ := by
          simp [createBatches_cons]
        rw [hgoal]
        have hlen : (xs.drop bp).length ≤ n := by
          simp only [List.length_drop]
          simp only [List.length_cons] at hl
          omega
        rw [ih (xs.drop bp) hlen i h2]
        have hdrop : (x :: xs).drop (bp + 1) = xs.drop bp := rfl
        rw [← hdrop, List.drop_drop]
        congr 2
        ring


/-- Closed form of the batch loop: folding `batchStep` over a list of
batches appends the filtered flattened items and bumps the counters
accordingly; `total`, `current`, `status` and `processing` are untouched. -/
theorem foldl_batchStep (proc : ProcOracle) :
    ∀ (bs : List (List ItemId)) (s : BatchRunState),
      bs.foldl (batchStep proc) s =
        { processing := s.processing
          progress := { s.progress with
            completed := s.progress.completed +
              (bs.flatten.filter (fun i => (proc i).isNone)).length
            failed := s.progress.failed +
              (bs.flatten.filter (fun i => (proc i).isSome)).length }
          results := s.results ++ bs.flatten.filter (fun i => (proc i).isNone)
          errors := s.errors ++
            (bs.flatten.filter (fun i => (proc i).isSome)).map (fun i => ⟨i, (proc i).getD ""⟩) } := by
  intro bs
  induction bs with
  | nil => intro s; simp
  | cons b bs ih =>
    intro s
    rw [List.foldl_cons, ih]
    simp only [batchStep, List.flatten_cons, List.filter_append, List.length_append,
      List.map_append, List.append_assoc]
    ext <;> simp <;> omega


theorem length_filter_none_add_some (proc : ProcOracle) (l : List ItemId) :
    (l.filter (fun i => (proc i).isNone)).length +
      (l.filter (fun i => (proc i).isSome)).length = l.length := by
  induction l with
  | nil => rfl
  | cons x xs ih =>
    cases h : proc x <;> simp [h] <;> omega


theorem count_filter_none_add_some (proc : ProcOracle) (l : List ItemId) (a : ItemId) :
    (l.filter (fun i => (proc i).isNone)).count a +
      (l.filter (fun i => (proc i).isSome)).count a = l.count a := by
  induction l with
  | nil => rfl
  | cons x xs ih =>
    by_cases hxa : x = a
    · subst hxa
      cases h : proc x with
      | none =>
        simp only [List.filter_cons, h, Option.isNone_none, Option.isSome_none, if_true,
          Bool.false_eq_true, if_false, List.count_cons_self]
        omega
      | some v =>
        simp only [List.filter_cons, h, Option.isNone_some, Option.isSome_some, if_true,
          Bool.false_eq_true, if_false, List.count_cons_self]
        omega
    · have hne : x ≠ a := hxa
      cases h : proc x with
      | none =>
        simp only [List.filter_cons, h, Option.isNone_none, Option.isSome_none, if_true,
          Bool.false_eq_true, if_false, List.count_cons_of_ne (fun hh => hxa hh.symm)]
        omega
      | some v =>
        simp only [List.filter_cons, h, Option.isNone_some, Option.isSome_some, if_true,
          Bool.false_eq_true, if_false, List.count_cons_of_ne (fun hh => hxa hh.symm)]
        omega


theorem map_id_of_mk_errorEntry (proc : ProcOracle) (l : List ItemId) :
    (l.map (fun i => (⟨i, (proc i).getD ""⟩ : ErrorEntry))).map ErrorEntry.id = l := by
  induction l with
  | nil => rfl
  | cons x xs ih => simp [ih]


/-- C1: for every non-empty selection with distinct ids and `concurrency ≥ 1`
the run terminates (`startProcessing` returns a final state), the final state
satisfies `completed + failed = total` with `total` the number of selected
items, every selected id lands in exactly one of `results`/`errors` (and
unselected ids in neither), and after every batch of the loop the partial
state satisfies `completed + failed ≤ total`. -/
theorem batch_run_accounting (proc : ProcOracle) (ids : List ItemId) (conc : Nat)
    (hne : ids ≠ []) (hnd : ids.Nodup) (hc : 1 ≤ conc) :
    ∃ s, startProcessing proc ids conc = some s ∧
      s.progress.total = ids.length ∧
      s.progress.completed + s.progress.failed = s.progress.total ∧
      (∀ i ∈ ids, s.results.count i + (s.errors.map ErrorEntry.id).count i = 1) ∧
      (∀ i, i ∉ ids → s.results.count i = 0 ∧ (s.errors.map ErrorEntry.id).count i = 0) ∧
      (∀ k,
        (((createBatches ids conc).take k).foldl (batchStep proc)
            (initialRunState ids)).progress.completed +
          (((createBatches ids conc).take k).foldl (batchStep proc)
            (initialRunState ids)).progress.failed ≤
        (((createBatches ids conc).take k).foldl (batchStep proc)
            (initialRunState ids)).progress.total) := by
  have hflat : (createBatches ids conc).flatten = ids :=
    createBatches_flatten conc hc ids.length ids le_rfl
  have hempty : ids.isEmpty = false := by
    cases ids with
    | nil => exact absurd rfl hne
    | cons x xs => rfl
  refine ⟨{ processItems proc (initialRunState ids) ids conc with processing := false },
    ?_, ?_, ?_, ?_, ?_, ?_⟩
  · simp [startProcessing, hempty]
  · simp [processItems, foldl_batchStep, initialRunState]
  · simp only [processItems, foldl_batchStep, initialRunState, hflat, Nat.zero_add]
    exact length_filter_none_add_some proc ids
  · intro i hi
    simp only [processItems, foldl_batchStep, initialRunState, hflat, List.nil_append,
      map_id_of_mk_errorEntry]
    rw [count_filter_none_add_some proc ids i]
    exact List.count_eq_one_of_mem hnd hi
  · intro i hi
    simp only [processItems, foldl_batchStep, initialRunState, hflat, List.nil_append,
      map_id_of_mk_errorEntry]
    constructor
    · exact List.count_eq_zero.mpr (fun hmem => hi (List.mem_of_mem_filter hmem))
    · exact List.count_eq_zero.mpr (fun hmem => hi (List.mem_of_mem_filter hmem))
  · intro k
    simp only [foldl_batchStep, initialRunState, Nat.zero_add]
    have hlen :
        ((createBatches ids conc).take k).flatten.length ≤ ids.length := by
      conv_rhs => rw [← hflat]
      conv_rhs => rw [← List.take_append_drop k (createBatches ids conc)]
      rw [List.flatten_append, List.length_append]
      omega
    calc ((((createBatches ids conc).take k).flatten.filter
            (fun i => (proc i).isNone)).length +
          (((createBatches ids conc).take k).flatten.filter
            (fun i => (proc i).isSome)).length)
        = ((createBatches ids conc).take k).flatten.length :=
          length_filter_none_add_some proc _
      _ ≤ ids.length := hlen


/-- Concrete instantiation of `batch_run_accounting`: three distinct items,
concurrency 2, the middle item failing. -/
theorem batch_run_accounting_witness :
    ([1, 2, 3] : List ItemId) ≠ [] ∧ ([1, 2, 3] : List ItemId).Nodup ∧ 1 ≤ 2 ∧
    (∃ s, startProcessing (fun i => if i = 2 then some "boom" else none) [1, 2, 3] 2 = some s ∧
      s.progress.total = ([1, 2, 3] : List ItemId).length ∧
      s.progress.completed + s.progress.failed = s.progress.total ∧
      (∀ i ∈ ([1, 2, 3] : List ItemId),
        s.results.count i + (s.errors.map ErrorEntry.id).count i = 1) ∧
      (∀ i, i ∉ ([1, 2, 3] : List ItemId) →
        s.results.count i = 0 ∧ (s.errors.map ErrorEntry.id).count i = 0) ∧
      (∀ k,
        (((createBatches [1, 2, 3] 2).take k).foldl
            (batchStep (fun i => if i = 2 then some "boom" else none))
            (initialRunState [1, 2, 3])).progress.completed +
          (((createBatches [1, 2, 3] 2).take k).foldl
            (batchStep (fun i => if i = 2 then some "boom" else none))
            (initialRunState [1, 2, 3])).progress.failed ≤
        (((createBatches [1, 2, 3] 2).take k).foldl
            (batchStep (fun i => if i = 2 then some "boom" else none))
            (initialRunState [1, 2, 3])).progress.total)) :=
  ⟨by decide, by decide, by decide,
    batch_run_accounting (fun i => if i = 2 then some "boom" else none) [1, 2, 3] 2
      (by decide) (by decide) (by decide)⟩


/-- C6 counterexample: with items `[1, 2]`, concurrency 1 and the cancel
signal firing between the two batches, item 2 is still dispatched and
processed after the signal was handled (it ends up in `results`), because
the `processItems` loop never consults any cancellation flag; moreover the
reset performed by `cancelProcessing` leaves the final counters
inconsistent (`completed = 1` while `total = 0`). -/
theorem cancel_counterexample :
    (runWithCancelAfter (fun _ => none) [1, 2] 1 1).results = [1, 2] ∧
    (runWithCancelAfter (fun _ => none) [1, 2] 1 1).progress.status = "cancelled" ∧
    (runWithCancelAfter (fun _ => none) [1, 2] 1 1).progress.total = 0 ∧
    (runWithCancelAfter (fun _ => none) [1, 2] 1 1).progress.completed = 1 ∧
    (runWithCancelAfter (fun _ => none) [1, 2] 1 1).progress.failed = 0 := by
  refine ⟨?_, ?_, ?_, ?_, ?_⟩ <;>
    simp [runWithCancelAfter, createBatches_eq, batchStep, initialRunState, cancelProcessing]


/-- C6 (amended): cancellation does not stop the dispatch loop.  After
`cancelProcessing` rewrites the state, every remaining batch is still
processed: each selected id still ends up in exactly one of
`results`/`errors` (in-flight *and* not-yet-started items alike), the
status string is `"cancelled"`, but the counter reset makes the final
tallies satisfy `completed + failed = number of items processed after the
signal` against `total = 0`. -/
theorem cancel_run_processes_remaining (proc : ProcOracle) (ids : List ItemId)
    (conc k : Nat) (hnd : ids.Nodup) (hc : 1 ≤ conc) :
    (runWithCancelAfter proc ids conc k).progress.status = "cancelled" ∧
    (runWithCancelAfter proc ids conc k).progress.total = 0 ∧
    (∀ i ∈ ids,
      (runWithCancelAfter proc ids conc k).results.count i +
        ((runWithCancelAfter proc ids conc k).errors.map ErrorEntry.id).count i = 1) ∧
    (runWithCancelAfter proc ids conc k).progress.completed +
      (runWithCancelAfter proc ids conc k).progress.failed =
      (((createBatches ids conc).drop k).flatten).length := by
  have hflat : (createBatches ids conc).flatten = ids :=
    createBatches_flatten conc hc ids.length ids le_rfl
  have hsplit :
      ((createBatches ids conc).take k).flatten ++
        ((createBatches ids conc).drop k).flatten = ids := by
    rw [← List.flatten_append, List.take_append_drop, hflat]
  refine ⟨?_, ?_, ?_, ?_⟩
  · simp [runWithCancelAfter, foldl_batchStep, cancelProcessing]
  · simp [runWithCancelAfter, foldl_batchStep, cancelProcessing]
  · intro i hi
    have h1 := count_filter_none_add_some proc ((createBatches ids conc).take k).flatten i
    have h2 := count_filter_none_add_some proc ((createBatches ids conc).drop k).flatten i
    have h3 : (((createBatches ids conc).take k).flatten).count i +
        (((createBatches ids conc).drop k).flatten).count i = ids.count i := by
      rw [← List.count_append, hsplit]
    have h4 : ids.count i = 1 := List.count_eq_one_of_mem hnd hi
    simp only [runWithCancelAfter, foldl_batchStep, cancelProcessing, initialRunState,
      List.nil_append, List.map_append, List.count_append, map_id_of_mk_errorEntry]
    omega
  · have h5 := length_filter_none_add_some proc ((createBatches ids conc).drop k).flatten
    simp only [runWithCancelAfter, foldl_batchStep, cancelProcessing, initialRunState,
      Nat.zero_add]
    omega


/-- Concrete instantiation of `cancel_run_processes_remaining`: two items,
concurrency 1, cancel after the first batch. -/
theorem cancel_run_processes_remaining_witness :
    ([1, 2] : List ItemId).Nodup ∧ 1 ≤ 1 ∧
    ((runWithCancelAfter (fun _ => none) [1, 2] 1 1).progress.status = "cancelled" ∧
     (runWithCancelAfter (fun _ => none) [1, 2] 1 1).progress.total = 0 ∧
     (∀ i ∈ ([1, 2] : List ItemId),
       (runWithCancelAfter (fun _ => none) [1, 2] 1 1).results.count i +
         ((runWithCancelAfter (fun _ => none) [1, 2] 1 1).errors.map ErrorEntry.id).count i = 1) ∧
     (runWithCancelAfter (fun _ => none) [1, 2] 1 1).progress.completed +
       (runWithCancelAfter (fun _ => none) [1, 2] 1 1).progress.failed =
       (((createBatches ([1, 2] : List ItemId) 1).drop 1).flatten).length) :=
  ⟨by decide, by decide,
    cancel_run_processes_remaining (fun _ => none) [1, 2] 1 1 (by decide) (by decide)⟩


/-- C9 counterexample: for items `[0..4]` with concurrency 2 the dispatcher
produces exactly the fixed static partition `[[0,1],[2,3],[4]]` processed
with a barrier between chunks — the scheduling the claim says is never
used.  With per-item durations `d 1 = 100`, `d _ = 1`, item 2 cannot start
before time 100 under the implemented barrier schedule, while the
spec's worker pool of 2 would start it at time 1. -/
theorem dispatch_static_chunking_counterexample :
    createBatches ([0, 1, 2, 3, 4] : List ItemId) 2 = [[0, 1], [2, 3], [4]] ∧
    dispatchStartTimes [0, 1, 2, 3, 4] 2 (fun i => if i = 1 then 100 else 1) =
      [(0, 0), (1, 0), (2, 100), (3, 100), (4, 101)] ∧
    specPoolStartTimes (fun i => if i = 1 then 100 else 1)
        (List.replicate 2 0) [0, 1, 2, 3, 4] =
      [(0, 0), (1, 0), (2, 1), (3, 2), (4, 3)] := by
  refine ⟨?_, ?_, ?_⟩
  · simp [createBatches_eq]
  · simp [dispatchStartTimes, createBatches_eq, barrierStartTimes, chunkDuration]
  · simp [specPoolStartTimes, minFree, bumpFirst]


/-- C9 (amended): the dispatcher schedules work as a fixed static
partitioning — `createBatches` splits the input into consecutive slices of
size `concurrency` in input order (`group i = (ids.drop (i * conc)).take conc`,
every group non-empty with at most `conc` items, covering the whole input),
and `processItems` processes these groups sequentially with a `Promise.all`
barrier between them.  At most `conc` items are in flight at once, but the
pool is not a shared work queue. -/
theorem dispatch_is_static_chunking (ids : List ItemId) (conc : Nat) (hc : 1 ≤ conc) :
    (createBatches ids conc).flatten = ids ∧
    (∀ c ∈ createBatches ids conc, c ≠ [] ∧ c.length ≤ conc) ∧
    (∀ (i : Nat) (h : i < (createBatches ids conc).length),
      (createBatches ids conc).get ⟨i, h⟩ = (ids.drop (i * conc)).take conc) :=
  ⟨createBatches_flatten conc hc ids.length ids le_rfl,
   createBatches_chunk_sizes conc hc ids.length ids le_rfl,
   createBatches_get conc hc ids.length ids le_rfl⟩


/-- Concrete instantiation of `dispatch_is_static_chunking`. -/
theorem dispatch_is_static_chunking_witness :
    1 ≤ 2 ∧
    ((createBatches ([9, 8, 7] : List ItemId) 2).flatten = [9, 8, 7] ∧
     (∀ c ∈ createBatches ([9, 8, 7] : List ItemId) 2, c ≠ [] ∧ c.length ≤ 2) ∧
     (∀ (i : Nat) (h : i < (createBatches ([9, 8, 7] : List ItemId) 2).length),
       (createBatches ([9, 8, 7] : List ItemId) 2).get ⟨i, h⟩ =
         (([9, 8, 7] : List ItemId).drop (i * 2)).take 2)) :=
  ⟨by decide, dispatch_is_static_chunking [9, 8, 7] 2 (by decide)⟩


/-- C10: `getProgressPercentage` is total: it returns `0` when `total = 0`
(the division-by-zero branch is short-circuited), otherwise it returns
`round (100 * completed / total)`, and whenever `completed ≤ total` the
result is an integer in `[0, 100]`. -/
theorem getProgressPercentage_spec (p : Progress) :
    (p.total = 0 → getProgressPercentage p = 0) ∧
    (p.total ≠ 0 →
      getProgressPercentage p = round ((100 * (p.completed : ℚ)) / (p.total : ℚ))) ∧
    (p.completed ≤ p.total →
      0 ≤ getProgressPercentage p ∧ getProgressPercentage p ≤ 100) := by
  by_cases h0 : p.total = 0
  · exact ⟨fun _ => by simp [getProgressPercentage, h0], fun hne => absurd h0 hne,
      fun _ => by simp [getProgressPercentage, h0]⟩
  · have hpos : (0 : ℚ) < (p.total : ℚ) := by
      exact_mod_cast Nat.pos_of_ne_zero h0
    have hval : getProgressPercentage p =
        round (((p.completed : ℚ) / (p.total : ℚ)) * 100) := by
      simp [getProgressPercentage, h0]
    refine ⟨fun hz => absurd hz h0, fun _ => ?_, fun h => ?_⟩
    · rw [hval]
      congr 1
      ring
    · have hq0 : (0 : ℚ) ≤ ((p.completed : ℚ) / (p.total : ℚ)) * 100 := by positivity
      have hq1 : ((p.completed : ℚ) / (p.total : ℚ)) * 100 ≤ 100 := by
        have hd : (p.completed : ℚ) / (p.total : ℚ) ≤ 1 :=
          (div_le_one hpos).mpr (by exact_mod_cast h)
        nlinarith
      constructor
      · rw [hval, round_eq]
        exact Int.le_floor.mpr (by push_cast; linarith)
      · rw [hval, round_eq]
        have hle : ((p.completed : ℚ) / (p.total : ℚ)) * 100 + 1 / 2 ≤ 100 + 1 / 2 := by
          linarith
        calc ⌊((p.completed : ℚ) / (p.total : ℚ)) * 100 + 1 / 2⌋
            ≤ ⌊(100 : ℚ) + 1 / 2⌋ := Int.floor_le_floor hle
          _ = 100 := by
              rw [Int.floor_eq_iff]
              constructor <;> norm_num


/-- Concrete instantiations of `getProgressPercentage_spec`: the guarded
zero branch at the cancel-reachable inconsistent state
`completed = 1, total = 0`, and the range bound at `completed = 3,
total = 4` with its `completed ≤ total` antecedent discharged. -/
theorem getProgressPercentage_spec_witness :
    getProgressPercentage (Progress.mk 0 0 1 0 "cancelled") = 0 ∧
    (3 : Nat) ≤ 4 ∧
    0 ≤ getProgressPercentage (Progress.mk 0 4 3 0 "processing") ∧
    getProgressPercentage (Progress.mk 0 4 3 0 "processing") ≤ 100 :=
  ⟨(getProgressPercentage_spec (Progress.mk 0 0 1 0 "cancelled")).1 rfl,
   by decide,
   ((getProgressPercentage_spec (Progress.mk 0 4 3 0 "processing")).2.2 (by decide)).1,
   ((getProgressPercentage_spec (Progress.mk 0 4 3 0 "processing")).2.2 (by decide)).2⟩


/-! ### Retry policy theorems -/

theorem retryFold_calls_bounds (requestFn : Nat → Except JsError α) (mr : Nat)
    (bd : ℚ) (j : Nat → ℚ) :
    ∀ (l : List Nat) (le : JsError),
      (l ≠ [] → 1 ≤ (retryFold requestFn mr bd j l le).calls) ∧
      (retryFold requestFn mr bd j l le).calls ≤ l.length := by
  intro l
  induction l with
  | nil => intro le; exact ⟨fun h => absurd rfl h, by simp [retryFold]⟩
  | cons a rest ih =>
    intro le
    constructor
    · intro _
      cases h : requestFn a with
      | ok v => simp [retryFold, h]
      | error e =>
        by_cases ha : a = mr
        · subst ha
          simp [retryFold, h]
        · simp [retryFold, h, ha]
    · cases h : requestFn a with
      | ok v => simp [retryFold, h]
      | error e =>
        by_cases ha : a = mr
        · subst ha
          simp [retryFold, h]
        · have hrest := (ih e).2
          simp only [retryFold, h, ha, if_false, List.length_cons]
          omega


/-- C5: for every wrapped operation, every `maxRetries ≥ 1`, every base
delay and every jitter stream, `retryRequest` invokes the operation at
least once and at most `maxRetries` times.  (The invocations are
sequential by construction: the loop `await`s each attempt before deciding
whether to run the next, which the model renders as a recursion that
consumes attempt `k`'s outcome before attempt `k+1` exists.) -/
theorem retryRequest_call_bounds (requestFn : Nat → Except JsError α)
    (maxRetries : Nat) (baseDelay : ℚ) (jitter : Nat → ℚ) (h : 1 ≤ maxRetries) :
    1 ≤ (retryRequest requestFn maxRetries baseDelay jitter).calls ∧
    (retryRequest requestFn maxRetries baseDelay jitter).calls ≤ maxRetries := by
  have hb := retryFold_calls_bounds requestFn maxRetries baseDelay jitter
    (List.range' 1 maxRetries) undefinedError
  have hne : List.range' 1 maxRetries ≠ [] := by
    intro hcon
    have := congrArg List.length hcon
    simp at this
    omega
  rw [retryRequest]
  constructor
  · exact hb.1 hne
  · calc (retryFold requestFn maxRetries baseDelay jitter
          (List.range' 1 maxRetries) undefinedError).calls
        ≤ (List.range' 1 maxRetries).length := hb.2
      _ = maxRetries := by simp


/-- Concrete instantiation of `retryRequest_call_bounds`. -/
theorem retryRequest_call_bounds_witness :
    1 ≤ 3 ∧
    (1 ≤ (retryRequest (fun _ => (Except.error undefinedError : Except JsError Unit))
        3 1000 (fun _ => 0)).calls ∧
     (retryRequest (fun _ => (Except.error undefinedError : Except JsError Unit))
        3 1000 (fun _ => 0)).calls ≤ 3) :=
  ⟨by decide,
    retryRequest_call_bounds (fun _ => (Except.error undefinedError : Except JsError Unit))
      3 1000 (fun _ => 0) (by decide)⟩


theorem retryFold_allFail {α : Type} (errF : Nat → JsError) (mr : Nat) (bd : ℚ)
    (j : Nat → ℚ) :
    ∀ (n start : Nat) (le : JsError), 0 < n → start + n = mr + 1 →
      retryFold (fun a => (Except.error (errF a) : Except JsError α)) mr bd j
          (List.range' start n) le =
        ⟨.error (errF mr), n,
          (List.range' start (n - 1)).map (fun a => bd * 2 ^ (a - 1) + j a)⟩ := by
  intro n
  induction n with
  | zero => intro start le h0 _; omega
  | succ n ih =>
    intro start le h0 hsum
    cases n with
    | zero =>
      have hstart : start = mr := by omega
      subst hstart
      simp [List.range'_one, retryFold]
    | succ m =>
      have hne : start ≠ mr := by omega
      have hrec := ih (start + 1) (errF start) (by omega) (by omega)
      have hcons : List.range' start (m + 1 + 1) = start :: List.range' (start + 1) (m + 1) :=
        List.range'_succ start (m + 1) 1
      have hstep : retryFold (fun a => (Except.error (errF a) : Except JsError α)) mr bd j
          (start :: List.range' (start + 1) (m + 1)) le =
          if start = mr then ⟨.error (errF start), 1, []⟩
          else
            ⟨(retryFold (fun a => (Except.error (errF a) : Except JsError α)) mr bd j
                (List.range' (start + 1) (m + 1)) (errF start)).result,
             (retryFold (fun a => (Except.error (errF a) : Except JsError α)) mr bd j
                (List.range' (start + 1) (m + 1)) (errF start)).calls + 1,
             (bd * 2 ^ (start - 1) + j start) ::
               (retryFold (fun a => (Except.error (errF a) : Except JsError α)) mr bd j
                  (List.range' (start + 1) (m + 1)) (errF start)).sleeps⟩ := rfl
      rw [hcons, hstep, if_neg hne, hrec]
      have hrange : List.range' start (m + 1 + 1 - 1) = start :: List.range' (start + 1) m := by
        rw [show m + 1 + 1 - 1 = m + 1 from rfl]
        exact List.range'_succ start m 1
      rw [hrange]
      simp


/-- C4 (amended): for a permanently failing operation and `maxRetries ≥ 1`,
the loop makes exactly `maxRetries` invocations and sleeps
`baseDelay * 2^(k-1) + jitter k` (uncapped — no `maxDelay` is applied
anywhere in the loop) after each attempt `k < maxRetries`, propagating the
final attempt's error with no further sleep.  With `baseDelay = 1000` the
sleeps are `1000 + jitter` then `2000 + jitter`, as in the spec's example. -/
theorem retryRequest_backoff {α : Type} (errF : Nat → JsError) (maxRetries : Nat)
    (baseDelay : ℚ) (jitter : Nat → ℚ) (h : 1 ≤ maxRetries) :
    retryRequest (fun a => (Except.error (errF a) : Except JsError α)) maxRetries
        baseDelay jitter =
      ⟨.error (errF maxRetries), maxRetries,
        (List.range' 1 (maxRetries - 1)).map
          (fun a => baseDelay * 2 ^ (a - 1) + jitter a)⟩ := by
  rw [retryRequest]
  exact retryFold_allFail errF maxRetries baseDelay jitter maxRetries 1 undefinedError
    (by omega) (by omega)


/-- Concrete instantiation of `retryRequest_backoff` at `maxRetries = 3`,
`baseDelay = 1000`, zero jitter. -/
theorem retryRequest_backoff_witness :
    1 ≤ 3 ∧
    retryRequest (fun _ => (Except.error undefinedError : Except JsError Unit))
        3 1000 (fun _ => 0) =
      ⟨.error undefinedError, 3,
        (List.range' 1 (3 - 1)).map (fun a => 1000 * 2 ^ (a - 1) + (fun _ => (0 : ℚ)) a)⟩ :=
  ⟨by decide,
    retryRequest_backoff (fun _ => undefinedError) 3 1000 (fun _ => 0) (by decide)⟩


/-- C4 counterexample: the claimed delay formula
`min(maxDelay, baseDelay * 2^(k-1)) + jitter` does not describe the code.
With `baseDelay = 1000`, 7 attempts of a permanently failing operation and
zero jitter, the sleep before attempt 7 is `32000` ms, while the capped
formula — as computed by the (never-called) `getRetryDelay` with its
default `maxDelay = 30000` — gives `30000`. -/
theorem retry_delay_uncapped_counterexample :
    (retryRequest (fun _ => (Except.error (⟨none, some 503, none,
        "Service Unavailable"⟩ : JsError) : Except JsError Unit)) 7 1000
        (fun _ => 0)).sleeps = [1000, 2000, 4000, 8000, 16000, 32000] ∧
    getRetryDelay 6 1000 30000 0 = 30000 ∧
    (32000 : ℚ) ≠ (30000 : ℚ) := by
  refine ⟨?_, ?_, by norm_num⟩
  · simp [retryRequest, retryFold, List.range']
    norm_num
  · rw [getRetryDelay]
    norm_num [min_def]


/-- C3 (code evaluation at the failing input): an operation that always
fails with an HTTP 400 error — which `shouldRetry` classifies as
non-retryable, matching the implementation guide's "Non-Retryable Errors"
list — is nonetheless invoked 3 times by `retryRequest` with two backoff
sleeps in between: neither retry loop ever consults the classifier. -/
theorem nonretryable_still_retried :
    shouldRetry ⟨some "400", none, none, "Bad Request"⟩ = false ∧
    shouldRetry ⟨some "VALIDATION_ERROR", none, none, "Validation failed"⟩ = false ∧
    (retryRequest (fun _ => (Except.error (⟨some "400", none, none,
        "Bad Request"⟩ : JsError) : Except JsError Unit)) 3 1000 (fun _ => 0)).calls = 3 ∧
    (retryRequest (fun _ => (Except.error (⟨some "400", none, none,
        "Bad Request"⟩ : JsError) : Except JsError Unit)) 3 1000 (fun _ => 0)).sleeps =
      [1000, 2000] := by
  refine ⟨by decide, by decide, ?_, ?_⟩
  · simp [retryRequest, retryFold, List.range']
  · simp [retryRequest, retryFold, List.range']
    norm_num


/-- C2 (code evaluation at the failing input): in the 5-item batch where
item 3's remote call always returns HTTP 500 and `maxRetries = 3`, the
wrapped operation is invoked exactly **once** for item 3 with no backoff
sleep — `processScene` converts the HTTP 500 into a resolved
`{success:false}` value, so `retryRequest` never observes a failure — and
the final report records items 1, 2, 4, 5 as successes and item 3 as the
single failure, carrying only the bare message string (the error entries
`{id, success, error}` have no `source` or `retryable` field). -/
theorem http500_scenario_evaluation :
    (processSceneWithRetry (scenarioHttp 3) 3 (fun _ => 0)).calls = 1 ∧
    (processSceneWithRetry (scenarioHttp 3) 3 (fun _ => 0)).sleeps = [] ∧
    startProcessing scenarioProc [1, 2, 4, 5, 3] 4 =
      some ⟨false, ⟨0, 5, 4, 1, "processing"⟩, [1, 2, 4, 5],
        [⟨3, "HTTP 500: Internal Server Error"⟩]⟩ := by
  refine ⟨?_, ?_, ?_⟩
  · simp [processSceneWithRetry, retryRequest, retryFold, List.range', scenarioHttp,
      processScene]
  · simp [processSceneWithRetry, retryRequest, retryFold, List.range', scenarioHttp,
      processScene]
  · simp [startProcessing, processItems, createBatches_eq, batchStep, initialRunState,
      scenarioProc, processItemRemote, processSceneWithRetry, retryRequest, retryFold,
      List.range', scenarioHttp, processScene, http500Error]


/-! ### Result applier lemmas -/

theorem findTagByName_congr (a b : Catalog) (h : a.tags = b.tags) (n : String) :
    findTagByName a n = findTagByName b n := by
  simp [findTagByName, h]


theorem findTagByName_mono (a b : Catalog) (ext : List Tag) (h : b.tags = a.tags ++ ext)
    (n : String) (t : Tag) (hf : findTagByName a n = some t) :
    findTagByName b n = some t := by
  simp only [findTagByName] at hf ⊢
  rw [h, List.find?_append, hf]
  rfl


theorem createTagIfNotExists_frame (cat : Catalog) (n : String) :
    (∃ ext, (createTagIfNotExists cat n).1.tags = cat.tags ++ ext) ∧
    (createTagIfNotExists cat n).1.sceneTags = cat.sceneTags ∧
    (createTagIfNotExists cat n).1.imageTags = cat.imageTags ∧
    (createTagIfNotExists cat n).1.markers = cat.markers := by
  cases h : findTagByName cat n with
  | some t =>
    exact ⟨⟨[], by simp [createTagIfNotExists, h]⟩, by simp [createTagIfNotExists, h],
      by simp [createTagIfNotExists, h], by simp [createTagIfNotExists, h]⟩
  | none =>
    exact ⟨⟨[⟨cat.nextTagId, n⟩], by simp [createTagIfNotExists, h]⟩,
      by simp [createTagIfNotExists, h], by simp [createTagIfNotExists, h],
      by simp [createTagIfNotExists, h]⟩


theorem createTagIfNotExists_find (cat : Catalog) (n : String) :
    ∃ t : Tag, findTagByName (createTagIfNotExists cat n).1 n = some t ∧
      (createTagIfNotExists cat n).2 = some t.id := by
  cases h : findTagByName cat n with
  | some t =>
    exact ⟨t, by simp [createTagIfNotExists, h], by simp [createTagIfNotExists, h]⟩
  | none =>
    refine ⟨⟨cat.nextTagId, n⟩, ?_, by simp [createTagIfNotExists, h]⟩
    simp only [createTagIfNotExists, h]
    simp only [findTagByName] at h ⊢
    rw [List.find?_append, h]
    simp [List.find?]


theorem createTagIfNotExists_of_found (cat : Catalog) (n : String) (t : Tag)
    (h : findTagByName cat n = some t) :
    createTagIfNotExists cat n = (cat, some t.id) := by
  simp [createTagIfNotExists, h]


theorem resolveTags_cons (cat : Catalog) (n : String) (ns : List String) :
    resolveTags cat (n :: ns) =
      match createTagIfNotExists cat n with
      | (c, some tid) => ((resolveTags c ns).1, tid :: (resolveTags c ns).2)
      | (c, none) => resolveTags c ns := rfl


theorem resolveTags_spec :
    ∀ (ns : List String) (cat : Catalog),
      (∃ ext, (resolveTags cat ns).1.tags = cat.tags ++ ext) ∧
      (resolveTags cat ns).1.sceneTags = cat.sceneTags ∧
      (resolveTags cat ns).1.imageTags = cat.imageTags ∧
      (resolveTags cat ns).1.markers = cat.markers ∧
      (resolveTags cat ns).2 =
        ns.filterMap (fun m => (findTagByName (resolveTags cat ns).1 m).map Tag.id) ∧
      (∀ m ∈ ns, (findTagByName (resolveTags cat ns).1 m).isSome) := by
  intro ns
  induction ns with
  | nil =>
    intro cat
    exact ⟨⟨[], by simp [resolveTags]⟩, rfl, rfl, rfl, rfl, by simp⟩
  | cons n ns ih =>
    intro cat
    obtain ⟨t, hfind, hsnd⟩ := createTagIfNotExists_find cat n
    obtain ⟨⟨ext0, hext0⟩, hs0, hi0, hm0⟩ := createTagIfNotExists_frame cat n
    have hc : createTagIfNotExists cat n = ((createTagIfNotExists cat n).1, some t.id) := by
      rw [← hsnd]
    have hstep : resolveTags cat (n :: ns) =
        ((resolveTags (createTagIfNotExists cat n).1 ns).1,
         t.id :: (resolveTags (createTagIfNotExists cat n).1 ns).2) := by
      rw [resolveTags_cons, hc]
    obtain ⟨⟨ext1, hext1⟩, hs1, hi1, hm1, hids1, hpost1⟩ := ih (createTagIfNotExists cat n).1
    have hfind1 : findTagByName (resolveTags (createTagIfNotExists cat n).1 ns).1 n = some t :=
      findTagByName_mono _ _ ext1 hext1 n t hfind
    rw [hstep]
    refine ⟨⟨ext0 ++ ext1, ?_⟩, ?_, ?_, ?_, ?_, ?_⟩
    · rw [hext1, hext0, List.append_assoc]
    · rw [hs1, hs0]
    · rw [hi1, hi0]
    · rw [hm1, hm0]
    · simp only [List.filterMap_cons, hfind1, Option.map_some]
      rw [← hids1]
      rfl
    · intro m hm
      rcases List.mem_cons.mp hm with hm | hm
      · subst hm
        simp [hfind1]
      · exact hpost1 m hm


theorem resolveTags_all_found :
    ∀ (ns : List String) (cat : Catalog),
      (∀ m ∈ ns, (findTagByName cat m).isSome) →
      resolveTags cat ns =
        (cat, ns.filterMap (fun m => (findTagByName cat m).map Tag.id)) := by
  intro ns
  induction ns with
  | nil => intro cat _; simp [resolveTags]
  | cons n ns ih =>
    intro cat hall
    obtain ⟨t, ht⟩ := Option.isSome_iff_exists.mp (hall n (List.mem_cons_self n ns))
    have hc := createTagIfNotExists_of_found cat n t ht
    have hstep : resolveTags cat (n :: ns) =
        ((resolveTags cat ns).1, t.id :: (resolveTags cat ns).2) := by
      rw [resolveTags_cons, hc]
    rw [hstep, ih cat (fun m hm => hall m (List.mem_cons_of_mem n hm))]
    simp [List.filterMap_cons, ht]


theorem resolveTags_idem (ns : List String) (cat : Catalog) :
    resolveTags (resolveTags cat ns).1 ns = resolveTags cat ns := by
  obtain ⟨_, _, _, _, hids, hpost⟩ := resolveTags_spec ns cat
  rw [resolveTags_all_found ns (resolveTags cat ns).1 hpost, ← hids]


theorem attachPairs_preserve :
    ∀ (ids : List Nat) (cur : List (ItemId × Nat)) (e : ItemId) (p : ItemId × Nat),
      p ∈ cur → p ∈ attachPairs e cur ids := by
  intro ids
  induction ids with
  | nil => intro cur e p hp; exact hp
  | cons tid rest ih =>
    intro cur e p hp
    by_cases hmem : (e, tid) ∈ cur
    · simp only [attachPairs, hmem, if_true]
      exact ih cur e p hp
    · simp only [attachPairs, hmem, if_false]
      exact ih _ e p (List.mem_append_left _ hp)


theorem attachPairs_mem :
    ∀ (ids : List Nat) (cur : List (ItemId × Nat)) (e : ItemId) (tid : Nat),
      tid ∈ ids → (e, tid) ∈ attachPairs e cur ids := by
  intro ids
  induction ids with
  | nil => intro cur e tid h; exact absurd h (List.not_mem_nil tid)
  | cons a rest ih =>
    intro cur e tid h
    rcases List.mem_cons.mp h with h | h
    · subst h
      by_cases hmem : (e, tid) ∈ cur
      · simp only [attachPairs, hmem, if_true]
        exact attachPairs_preserve rest cur e (e, tid) hmem
      · simp only [attachPairs, hmem, if_false]
        exact attachPairs_preserve rest _ e (e, tid)
          (List.mem_append_right _ (List.mem_singleton.mpr rfl))
    · by_cases hmem : (e, a) ∈ cur <;> simp only [attachPairs, hmem, if_true, if_false] <;>
        exact ih _ e tid h


theorem attachPairs_idem_of_mem :
    ∀ (ids : List Nat) (cur : List (ItemId × Nat)) (e : ItemId),
      (∀ tid ∈ ids, (e, tid) ∈ cur) → attachPairs e cur ids = cur := by
  intro ids
  induction ids with
  | nil => intro cur e _; rfl
  | cons a rest ih =>
    intro cur e hall
    have hmem : (e, a) ∈ cur := hall a (List.mem_cons_self a rest)
    simp only [attachPairs, hmem, if_true]
    exact ih cur e (fun tid ht => hall tid (List.mem_cons_of_mem a ht))


theorem createMarkersLoop_frame (failM : MarkerFailOracle) (sceneId : ItemId) :
    ∀ (ms : List MarkerInput) (cat : Catalog),
      (createMarkersLoop failM sceneId cat ms).1.tags = cat.tags ∧
      (createMarkersLoop failM sceneId cat ms).1.nextTagId = cat.nextTagId ∧
      (createMarkersLoop failM sceneId cat ms).1.sceneTags = cat.sceneTags ∧
      (createMarkersLoop failM sceneId cat ms).1.imageTags = cat.imageTags := by
  intro ms
  induction ms with
  | nil => intro cat; exact ⟨rfl, rfl, rfl, rfl⟩
  | cons m rest ih =>
    intro cat
    cases h : failM m.title m.seconds with
    | some msg => simp [createMarkersLoop, createSceneMarker, h]
    | none =>
      have := ih { cat with markers := cat.markers ++
        [⟨sceneId, m.title, m.seconds,
          m.tags.filterMap (fun n => (findTagByName cat n).map Tag.id)⟩] }
      simp only [createMarkersLoop, createSceneMarker, h] at this ⊢
      exact this


theorem createMarkersLoop_spec (failM : MarkerFailOracle) (sceneId : ItemId) :
    ∀ (ms : List MarkerInput) (cat : Catalog),
      (createMarkersLoop failM sceneId cat ms).2.1 =
        (ms.find? (fun m => (failM m.title m.seconds).isSome)).bind
          (fun m => failM m.title m.seconds) ∧
      (createMarkersLoop failM sceneId cat ms).2.2 =
        (if ms.all (fun m => (failM m.title m.seconds).isNone) then ms.length
         else (ms.takeWhile (fun m => (failM m.title m.seconds).isNone)).length + 1) := by
  intro ms
  induction ms with
  | nil => intro cat; simp [createMarkersLoop]
  | cons m rest ih =>
    intro cat
    cases h : failM m.title m.seconds with
    | some msg =>
      constructor
      · simp [createMarkersLoop, createSceneMarker, h, List.find?_cons]
      · simp [createMarkersLoop, createSceneMarker, h, List.all_cons, List.takeWhile_cons]
    | none =>
      obtain ⟨ih1, ih2⟩ := ih { cat with markers := cat.markers ++
        [⟨sceneId, m.title, m.seconds,
          m.tags.filterMap (fun n => (findTagByName cat n).map Tag.id)⟩] }
      constructor
      · simp only [createMarkersLoop, createSceneMarker, h]
        rw [ih1]
        simp [List.find?_cons, h]
      · simp only [createMarkersLoop, createSceneMarker, h]
        rw [ih2]
        by_cases hall : rest.all (fun m => (failM m.title m.seconds).isNone) <;>
          simp [List.all_cons, List.takeWhile_cons, h, hall]


theorem createMarkersLoop_noFail (sceneId : ItemId) :
    ∀ (ms : List MarkerInput) (cat : Catalog),
      (createMarkersLoop noMarkerFailure sceneId cat ms).2.1 = none ∧
      (createMarkersLoop noMarkerFailure sceneId cat ms).1.markers.length =
        cat.markers.length + ms.length := by
  intro ms
  induction ms with
  | nil => intro cat; simp [createMarkersLoop]
  | cons m rest ih =>
    intro cat
    obtain ⟨ih1, ih2⟩ := ih { cat with markers := cat.markers ++
      [⟨sceneId, m.title, m.seconds,
        m.tags.filterMap (fun n => (findTagByName cat n).map Tag.id)⟩] }
    constructor
    · simp only [createMarkersLoop, createSceneMarker, noMarkerFailure]
      exact ih1
    · simp only [createMarkersLoop, createSceneMarker, noMarkerFailure]
      rw [ih2]
      simp only [List.length_append, List.length_cons]
      simp
      omega


theorem tagPhase_fields (cat : Catalog) (itemId : ItemId) (ty : String) (res : AIResult) :
    (tagPhase cat itemId ty res).tags = (resolveTags cat res.tags).1.tags ∧
    (tagPhase cat itemId ty res).nextTagId = (resolveTags cat res.tags).1.nextTagId ∧
    (tagPhase cat itemId ty res).markers = (resolveTags cat res.tags).1.markers ∧
    (tagPhase cat itemId ty res).sceneTags =
      (if (resolveTags cat res.tags).2.length > 0 ∧ ty = "scenes" then
        attachPairs itemId (resolveTags cat res.tags).1.sceneTags (resolveTags cat res.tags).2
       else (resolveTags cat res.tags).1.sceneTags) ∧
    (tagPhase cat itemId ty res).imageTags =
      (if (resolveTags cat res.tags).2.length > 0 ∧ ¬ty = "scenes" then
        attachPairs itemId (resolveTags cat res.tags).1.imageTags (resolveTags cat res.tags).2
       else (resolveTags cat res.tags).1.imageTags) := by
  by_cases hl : (resolveTags cat res.tags).2.length > 0 <;>
    by_cases hty : ty = "scenes" <;>
      simp [tagPhase, addTagsToScene, addTagsToImage, hl, hty]


theorem applyResultsToStash_fields (failM : MarkerFailOracle) (cat : Catalog)
    (itemId : ItemId) (ty : String) (res : AIResult) :
    (applyResultsToStash failM cat itemId ty res).cat.tags =
      (tagPhase cat itemId ty res).tags ∧
    (applyResultsToStash failM cat itemId ty res).cat.nextTagId =
      (tagPhase cat itemId ty res).nextTagId ∧
    (applyResultsToStash failM cat itemId ty res).cat.sceneTags =
      (tagPhase cat itemId ty res).sceneTags ∧
    (applyResultsToStash failM cat itemId ty res).cat.imageTags =
      (tagPhase cat itemId ty res).imageTags ∧
    (applyResultsToStash failM cat itemId ty res).error =
      (if ty = "scenes" ∧ res.markers.length > 0 then
        (createMarkersLoop failM itemId (tagPhase cat itemId ty res) res.markers).2.1
       else none) ∧
    (applyResultsToStash failM cat itemId ty res).markerCreateCalls =
      (if ty = "scenes" ∧ res.markers.length > 0 then
        (createMarkersLoop failM itemId (tagPhase cat itemId ty res) res.markers).2.2
       else 0) := by
  by_cases hcond : ty = "scenes" ∧ res.markers.length > 0
  · obtain ⟨hf1, hf2, hf3, hf4⟩ :=
      createMarkersLoop_frame failM itemId res.markers (tagPhase cat itemId ty res)
    simp only [applyResultsToStash]
    rw [if_pos hcond]
    exact ⟨hf1, hf2, hf3, hf4, (if_pos hcond).symm, (if_pos hcond).symm⟩
  · simp [applyResultsToStash, hcond]


theorem apply_noFail_error (cat : Catalog) (itemId : ItemId) (ty : String)
    (res : AIResult) :
    (applyResultsToStash noMarkerFailure cat itemId ty res).error = none := by
  obtain ⟨_, _, _, _, herr, _⟩ := applyResultsToStash_fields noMarkerFailure cat itemId ty res
  rw [herr]
  by_cases hcond : ty = "scenes" ∧ res.markers.length > 0
  · rw [if_pos hcond]
    exact (createMarkersLoop_noFail itemId res.markers (tagPhase cat itemId ty res)).1
  · rw [if_neg hcond]


theorem apply_noFail_markers (cat : Catalog) (itemId : ItemId) (ty : String)
    (res : AIResult) :
    (applyResultsToStash noMarkerFailure cat itemId ty res).cat.markers.length =
      (tagPhase cat itemId ty res).markers.length +
        (if ty = "scenes" ∧ res.markers.length > 0 then res.markers.length else 0) := by
  by_cases hcond : ty = "scenes" ∧ res.markers.length > 0
  · simp only [applyResultsToStash]
    rw [if_pos hcond, if_pos hcond]
    exact (createMarkersLoop_noFail itemId res.markers (tagPhase cat itemId ty res)).2
  · simp only [applyResultsToStash]
    rw [if_neg hcond, if_neg hcond]
    simp


theorem resolveTags_second (failM : MarkerFailOracle) (cat : Catalog) (itemId : ItemId)
    (ty : String) (res : AIResult) :
    resolveTags (applyResultsToStash failM cat itemId ty res).cat res.tags =
      ((applyResultsToStash failM cat itemId ty res).cat, (resolveTags cat res.tags).2) := by
  obtain ⟨hT, _, _, _, _, _⟩ := applyResultsToStash_fields failM cat itemId ty res
  obtain ⟨hT2, _, _, _, _⟩ := tagPhase_fields cat itemId ty res
  have htags : (applyResultsToStash failM cat itemId ty res).cat.tags =
      (resolveTags cat res.tags).1.tags := by rw [hT, hT2]
  obtain ⟨_, _, _, _, hids, hpost⟩ := resolveTags_spec res.tags cat
  have hfound : ∀ m ∈ res.tags,
      (findTagByName (applyResultsToStash failM cat itemId ty res).cat m).isSome := by
    intro m hm
    rw [findTagByName_congr _ _ htags]
    exact hpost m hm
  rw [resolveTags_all_found _ _ hfound]
  congr 1
  rw [hids]
  have hfun : (fun m => (findTagByName (applyResultsToStash failM cat itemId ty res).cat m).map
      Tag.id) = fun m => (findTagByName (resolveTags cat res.tags).1 m).map Tag.id :=
    funext fun m => by rw [findTagByName_congr _ _ htags]
  rw [hfun]


/-- C7 (amended): applying the result applier twice with the same
successful outcome is idempotent for the tag writes — the second
application finds every tag by name instead of creating it (`tags` and
`nextTagId` unchanged) and re-attaches only already-attached ids
(`sceneTags`/`imageTags` unchanged) — but **not** for markers: the second
application re-issues every `SceneMarkerCreate` mutation and appends
`res.markers.length` additional marker rows with identical title and
offset, because neither the client nor the documented mutation checks for
an existing marker. -/
theorem apply_twice (cat : Catalog) (itemId : ItemId) (ty : String) (res : AIResult) :
    (applyResultsToStash noMarkerFailure cat itemId ty res).error = none ∧
    (applyResultsToStash noMarkerFailure
      (applyResultsToStash noMarkerFailure cat itemId ty res).cat itemId ty res).error = none ∧
    (applyResultsToStash noMarkerFailure
      (applyResultsToStash noMarkerFailure cat itemId ty res).cat itemId ty res).cat.tags =
      (applyResultsToStash noMarkerFailure cat itemId ty res).cat.tags ∧
    (applyResultsToStash noMarkerFailure
      (applyResultsToStash noMarkerFailure cat itemId ty res).cat itemId ty res).cat.nextTagId =
      (applyResultsToStash noMarkerFailure cat itemId ty res).cat.nextTagId ∧
    (applyResultsToStash noMarkerFailure
      (applyResultsToStash noMarkerFailure cat itemId ty res).cat itemId ty res).cat.sceneTags =
      (applyResultsToStash noMarkerFailure cat itemId ty res).cat.sceneTags ∧
    (applyResultsToStash noMarkerFailure
      (applyResultsToStash noMarkerFailure cat itemId ty res).cat itemId ty res).cat.imageTags =
      (applyResultsToStash noMarkerFailure cat itemId ty res).cat.imageTags ∧
    (applyResultsToStash noMarkerFailure
      (applyResultsToStash noMarkerFailure cat itemId ty res).cat itemId ty res).cat.markers.length =
      (applyResultsToStash noMarkerFailure cat itemId ty res).cat.markers.length +
        (if ty = "scenes" ∧ res.markers.length > 0 then res.markers.length else 0) := by
  obtain ⟨h1T, h1N, h1S, h1I, _, _⟩ :=
    applyResultsToStash_fields noMarkerFailure cat itemId ty res
  obtain ⟨hp1T, hp1N, hp1M, hp1S, hp1I⟩ := tagPhase_fields cat itemId ty res
  obtain ⟨h2T, h2N, h2S, h2I, _, _⟩ := applyResultsToStash_fields noMarkerFailure
    (applyResultsToStash noMarkerFailure cat itemId ty res).cat itemId ty res
  obtain ⟨hq1T, hq1N, hq1M, hq1S, hq1I⟩ := tagPhase_fields
    (applyResultsToStash noMarkerFailure cat itemId ty res).cat itemId ty res
  have hsecond := resolveTags_second noMarkerFailure cat itemId ty res
  have hsecond1 : (resolveTags (applyResultsToStash noMarkerFailure cat itemId ty res).cat
      res.tags).1 = (applyResultsToStash noMarkerFailure cat itemId ty res).cat := by
    rw [hsecond]
  have hsecond2 : (resolveTags (applyResultsToStash noMarkerFailure cat itemId ty res).cat
      res.tags).2 = (resolveTags cat res.tags).2 := by
    rw [hsecond]
  refine ⟨apply_noFail_error cat itemId ty res, apply_noFail_error _ itemId ty res,
    ?_, ?_, ?_, ?_, ?_⟩
  · rw [h2T, hq1T, hsecond1]
  · rw [h2N, hq1N, hsecond1]
  · rw [h2S, hq1S, hsecond1, hsecond2]
    by_cases hg : (resolveTags cat res.tags).2.length > 0 ∧ ty = "scenes"
    · rw [if_pos hg]
      apply attachPairs_idem_of_mem
      intro tid ht
      rw [h1S, hp1S, if_pos hg]
      exact attachPairs_mem _ _ itemId tid ht
    · rw [if_neg hg]
  · rw [h2I, hq1I, hsecond1, hsecond2]
    by_cases hg : (resolveTags cat res.tags).2.length > 0 ∧ ¬ty = "scenes"
    · rw [if_pos hg]
      apply attachPairs_idem_of_mem
      intro tid ht
      rw [h1I, hp1I, if_pos hg]
      exact attachPairs_mem _ _ itemId tid ht
    · rw [if_neg hg]
  · rw [apply_noFail_markers, hq1M, hsecond1]


/-- C7 counterexample: a successful outcome with one tag and one marker,
applied twice to an empty catalog.  The tag is not duplicated (the second
resolve finds it), but the catalog ends with **two** identical markers
(same scene, title and offset): the re-submitted marker is created again. -/
theorem marker_duplicate_counterexample :
    (applyResultsToStash noMarkerFailure
      (applyResultsToStash noMarkerFailure ⟨[], 0, [], [], []⟩ 1 "scenes"
        ⟨["tagA"], [⟨"mk", 5, []⟩]⟩).cat 1 "scenes"
      ⟨["tagA"], [⟨"mk", 5, []⟩]⟩).cat.tags = [⟨0, "tagA"⟩] ∧
    (applyResultsToStash noMarkerFailure
      (applyResultsToStash noMarkerFailure ⟨[], 0, [], [], []⟩ 1 "scenes"
        ⟨["tagA"], [⟨"mk", 5, []⟩]⟩).cat 1 "scenes"
      ⟨["tagA"], [⟨"mk", 5, []⟩]⟩).cat.sceneTags = [(1, 0)] ∧
    (applyResultsToStash noMarkerFailure
      (applyResultsToStash noMarkerFailure ⟨[], 0, [], [], []⟩ 1 "scenes"
        ⟨["tagA"], [⟨"mk", 5, []⟩]⟩).cat 1 "scenes"
      ⟨["tagA"], [⟨"mk", 5, []⟩]⟩).cat.markers =
      [⟨1, "mk", 5, []⟩, ⟨1, "mk", 5, []⟩] := by
  refine ⟨?_, ?_, ?_⟩ <;> rfl


/-- C8 (amended): when a marker-create mutation fails mid-apply, the
already-performed tag writes are kept exactly as the tag phase left them
(no rollback), the first failing marker's error is what propagates, and the
failing mutation is attempted exactly once — the loop aborts at the first
failure and nothing is retried (each sub-step runs at most once per apply). -/
theorem apply_marker_failure (failM : MarkerFailOracle) (cat : Catalog)
    (itemId : ItemId) (res : AIResult) :
    (applyResultsToStash failM cat itemId "scenes" res).cat.tags =
      (tagPhase cat itemId "scenes" res).tags ∧
    (applyResultsToStash failM cat itemId "scenes" res).cat.sceneTags =
      (tagPhase cat itemId "scenes" res).sceneTags ∧
    (applyResultsToStash failM cat itemId "scenes" res).error =
      (if res.markers.length > 0 then
        (res.markers.find? (fun m => (failM m.title m.seconds).isSome)).bind
          (fun m => failM m.title m.seconds)
       else none) ∧
    (applyResultsToStash failM cat itemId "scenes" res).markerCreateCalls =
      (if res.markers.length > 0 then
        (if res.markers.all (fun m => (failM m.title m.seconds).isNone) then
          res.markers.length
         else (res.markers.takeWhile (fun m => (failM m.title m.seconds).isNone)).length + 1)
       else 0) := by
  obtain ⟨hT, _, hS, _, herr, hcalls⟩ :=
    applyResultsToStash_fields failM cat itemId "scenes" res
  obtain ⟨hspec1, hspec2⟩ :=
    createMarkersLoop_spec failM itemId res.markers (tagPhase cat itemId "scenes" res)
  by_cases hmk : res.markers.length > 0
  · have hcond : ("scenes" : String) = "scenes" ∧ res.markers.length > 0 := ⟨rfl, hmk⟩
    refine ⟨hT, hS, ?_, ?_⟩
    · rw [herr, if_pos hcond, if_pos hmk, hspec1]
    · rw [hcalls, if_pos hcond, hspec2, if_pos hmk]
  · have hcond : ¬(("scenes" : String) = "scenes" ∧ res.markers.length > 0) := by
      intro hc
      exact hmk hc.2
    refine ⟨hT, hS, ?_, ?_⟩
    · rw [herr, if_neg hcond, if_neg hmk]
    · rw [hcalls, if_neg hcond, if_neg hmk]


/-- C8 counterexample: an outcome with two tags and one permanently
failing marker.  Both tags are created and attached and stay attached after
the marker failure (no rollback) — but the failing marker-create mutation
is attempted exactly **once** (no per-sub-step retry), and at the batch
level the whole item is recorded as failed in the `errors` list (the apply
error rethrows through `processItem`), i.e. the failure is an aggregate
failure of the outcome, not a marker-step-only report. -/
theorem partial_apply_counterexample :
    (applyResultsToStash badMarkerOracle ⟨[], 0, [], [], []⟩ 7 "scenes"
      ⟨["tagA", "tagB"], [⟨"bad", 3, []⟩]⟩).cat.tags = [⟨0, "tagA"⟩, ⟨1, "tagB"⟩] ∧
    (applyResultsToStash badMarkerOracle ⟨[], 0, [], [], []⟩ 7 "scenes"
      ⟨["tagA", "tagB"], [⟨"bad", 3, []⟩]⟩).cat.sceneTags = [(7, 0), (7, 1)] ∧
    (applyResultsToStash badMarkerOracle ⟨[], 0, [], [], []⟩ 7 "scenes"
      ⟨["tagA", "tagB"], [⟨"bad", 3, []⟩]⟩).error = some "GraphQL request failed" ∧
    (applyResultsToStash badMarkerOracle ⟨[], 0, [], [], []⟩ 7 "scenes"
      ⟨["tagA", "tagB"], [⟨"bad", 3, []⟩]⟩).markerCreateCalls = 1 ∧
    startProcessing (fun _ =>
        (applyResultsToStash badMarkerOracle ⟨[], 0, [], [], []⟩ 7 "scenes"
          ⟨["tagA", "tagB"], [⟨"bad", 3, []⟩]⟩).error) [7] 1 =
      some ⟨false, ⟨0, 1, 0, 1, "processing"⟩, [], [⟨7, "GraphQL request failed"⟩]⟩ := by
  refine ⟨rfl, rfl, rfl, rfl, ?_⟩
  simp [startProcessing, processItems, createBatches_eq, batchStep, initialRunState,
    applyResultsToStash, tagPhase, resolveTags, createTagIfNotExists, findTagByName,
    addTagsToScene, attachPairs, createMarkersLoop, createSceneMarker, badMarkerOracle]


end NSFWTagger
